import Mathlib

/-!
Verification development for the token-monitor program (`src/main2.py`).

The service client (`check_token_validity`, `check_server_membership`,
`leave_server`) is embedded as pure functions over an explicit list of
HTTP outcomes: each network request made by the Python code consumes the
next element of the list, which is either a completed response (status
code, optional Retry-After value, and — for the guild-list endpoint —
the decoded body) or a transport-level exception.  Rate-limit sleeps do
not affect returned values and are modelled as no-ops.

The poller/coordinator (`monitor_token` and the shared
`monitoring_active` latch) is embedded as an interleaved transition
system: each scheduler entry lets one poller run one iteration of its
`while monitoring_active[0]` loop, observing the membership status the
environment returns for that iteration's `check_server_membership` call.
Per the source, `status_messages` and `exit_success` are LOCAL variables
of each `monitor_token` invocation; only `monitoring_active` is shared.
Ghost fields (`leave_log`, `check_log`) record which network actions
each poller performed, for stating the claims.
-/

namespace DiscordXp

/-- One point-in-time observation of a credential: `{"valid": ..., "in_server": ...}`
as returned by `check_server_membership`. -/
structure MembershipStatus where
  valid : Bool
  in_server : Bool
deriving DecidableEq, Repr

/-- Outcome of one HTTP request made by the client: a completed response
(status code, optional `Retry-After` header value, and the guild-id list
body used by the fallback `users/@me/guilds` query), or a transport-level
exception raised during the call. -/
inductive HttpResult where
  | ok (status : Nat) (retryAfter : Option Nat) (guilds : List String)
  | exc
deriving DecidableEq, Repr

/-- Embeds `check_token_validity` (src/main2.py lines 52-74): consumes one response;
200 ⇒ `true`, 401 ⇒ `false`, 429 ⇒ sleep and retry the same call on the
rest of the stream, any other status ⇒ `false`; a raised exception is
caught and yields `false`.  Returns `none` only when the outcome stream is
exhausted (the real program always receives an outcome per request). -/
def check_token_validity : List HttpResult → Option (Bool × List HttpResult)
  | [] => none
  | HttpResult.exc :: rest => some (false, rest)
  | HttpResult.ok s _ _ :: rest =>
    if s = 200 then some (true, rest)
    else if s = 401 then some (false, rest)
    else if s = 429 then check_token_validity rest
    else some (false, rest)

/-- Embeds `leave_server` (src/main2.py lines 151-173): one DELETE request;
204 ⇒ `true`, 404 (already absent) ⇒ `true`, 429 ⇒ sleep and retry,
other status ⇒ `false`; a raised exception is caught and yields `false`. -/
def leave_server : List HttpResult → Option (Bool × List HttpResult)
  | [] => none
  | HttpResult.exc :: rest => some (false, rest)
  | HttpResult.ok s _ _ :: rest =>
    if s = 204 then some (true, rest)
    else if s = 404 then some (true, rest)
    else if s = 429 then leave_server rest
    else some (false, rest)

/-- Embeds `check_server_membership` (src/main2.py lines 76-117), fuel-indexed so the
recursion of the 429 branch (which re-runs the WHOLE call, re-validation
included) is structural.  The wrapper below supplies fuel `env.length`,
which always suffices because every recursive call strictly shrinks the
outcome stream by at least two elements.
Branches, in source order: the inner `check_token_validity` call runs first
(its exceptions are caught inside itself); if it returns false the result is
`{"valid": False, "in_server": False}`.  Then the `guilds/{id}/members/@me`
request: 200 ⇒ `{true, true}`; 404 ⇒ `{true, false}`; 401 ⇒ `{false, false}`;
429 ⇒ sleep, then recurse on the full call; any other status ⇒ fallback
GET `users/@me/guilds`: on 200 with the guild contained ⇒ `{true, true}`,
otherwise `{true, false}`.  An exception raised by the member request or by
the fallback request is caught by the function's handler ⇒ `{true, false}`. -/
def check_server_membership_core (gid : String) :
    Nat → List HttpResult → Option (MembershipStatus × List HttpResult)
  | 0, _ => none
  | fuel+1, env =>
    match check_token_validity env with
    | none => none
    | some (false, rest) => some (⟨false, false⟩, rest)
    | some (true, rest) =>
      match rest with
      | [] => none
      | HttpResult.exc :: r2 => some (⟨true, false⟩, r2)
      | HttpResult.ok s _ _ :: r2 =>
        if s = 200 then some (⟨true, true⟩, r2)
        else if s = 404 then some (⟨true, false⟩, r2)
        else if s = 401 then some (⟨false, false⟩, r2)
        else if s = 429 then check_server_membership_core gid fuel r2
        else
          match r2 with
          | [] => none
          | HttpResult.exc :: r3 => some (⟨true, false⟩, r3)
          | HttpResult.ok s2 _ g2 :: r3 =>
            if s2 = 200 ∧ gid ∈ g2 then some (⟨true, true⟩, r3)
            else some (⟨true, false⟩, r3)

/-- Wrapper: `check_server_membership` on an outcome stream: fuel `env.length` is
always adequate (see `check_server_membership_core_fuel_irrel`). -/
def check_server_membership (gid : String) (env : List HttpResult) :
    Option (MembershipStatus × List HttpResult) :=
  check_server_membership_core gid env.length env

theorem check_token_validity_length_lt {env rest : List HttpResult} {b : Bool}
    (h : check_token_validity env = some (b, rest)) : rest.length < env.length := by
  induction env with
  | nil => simp [check_token_validity] at h
  | cons hd tl ih =>
    have goal_of_eq : ∀ r : List HttpResult, tl = r → r.length < (hd :: tl).length := by
      intro r hr
      subst hr
      simp
    cases hd with
    | exc =>
      simp only [check_token_validity, Option.some.injEq, Prod.mk.injEq] at h
      exact goal_of_eq rest h.2
    | ok s ra g =>
      simp only [check_token_validity] at h
      split at h
      · simp only [Option.some.injEq, Prod.mk.injEq] at h
        exact goal_of_eq rest h.2
      · split at h
        · simp only [Option.some.injEq, Prod.mk.injEq] at h
          exact goal_of_eq rest h.2
        · split at h
          · exact Nat.lt_succ_of_lt (ih h)
          · simp only [Option.some.injEq, Prod.mk.injEq] at h
            exact goal_of_eq rest h.2

theorem check_server_membership_core_fuel_irrel (gid : String) :
    ∀ f1 f2 env, env.length ≤ f1 → env.length ≤ f2 →
      check_server_membership_core gid f1 env = check_server_membership_core gid f2 env := by
  intro f1
  induction f1 using Nat.strong_induction_on with
  | _ f1 ih =>
    intro f2 env h1 h2
    match f1, f2, env with
    | 0, 0, env => rfl
    | 0, g2+1, env =>
      have : env = [] := List.eq_nil_of_length_eq_zero (Nat.le_zero.mp h1)
      subst this
      simp [check_server_membership_core, check_token_validity]
    | g1+1, 0, env =>
      have : env = [] := List.eq_nil_of_length_eq_zero (Nat.le_zero.mp h2)
      subst this
      simp [check_server_membership_core, check_token_validity]
    | g1+1, g2+1, env =>
      simp only [check_server_membership_core]
      cases hv : check_token_validity env with
      | none => rfl
      | some p =>
        obtain ⟨b, rest⟩ := p
        cases b with
        | false => rfl
        | true =>
          have hrest : rest.length < env.length := check_token_validity_length_lt hv
          cases rest with
          | nil => rfl
          | cons hd r2 =>
            cases hd with
            | exc => rfl
            | ok s ra g =>
              simp only
              by_cases h200 : s = 200
              · simp [h200]
              · by_cases h404 : s = 404
                · simp [h200, h404]
                · by_cases h401 : s = 401
                  · simp [h200, h404, h401]
                  · by_cases h429 : s = 429
                    · simp only [h200, h404, h401, h429, if_false, if_true]
                      have hr2 : r2.length + 1 ≤ env.length := by
                        simpa using Nat.le_of_lt hrest
                      have hg1 : r2.length ≤ g1 := by omega
                      have hg2 : r2.length ≤ g2 := by omega
                      have hlt : g1 < g1 + 1 := Nat.lt_succ_self g1
                      exact ih g1 hlt g2 r2 hg1 hg2
                    · simp [h200, h404, h401, h429]

theorem check_server_membership_eq_core (gid : String) (env : List HttpResult)
    {fuel : Nat} (h : env.length ≤ fuel) :
    check_server_membership gid env = check_server_membership_core gid fuel env :=
  check_server_membership_core_fuel_irrel gid env.length fuel env (Nat.le_refl _) h

/-- A credential entry of `token.txt`: `(nama_token, token)`. -/
abbrev Credential := String × String

/-- The tokens the ban branch of `monitor_token` fans leave calls out to
(src/main2.py lines 237-238): every entry of `all_tokens` other than the
detecting token whose initial status had `in_server` true. -/
def fanout_targets (all_tokens : List Credential) (nama : String)
    (initial_status : String → MembershipStatus) : List Credential :=
  all_tokens.filter (fun p => p.1 ≠ nama && (initial_status p.1).in_server)

/-- Local state accumulated by the fan-out block of `monitor_token`
(status annotations and the exit-success record, both LOCAL dictionaries of
the running `monitor_token` call), plus the list of tokens a leave request
was actually issued for. -/
structure FanoutOutcome where
  targets : List Credential
  status_messages : List (String × String)
  exit_success : List String
deriving DecidableEq, Repr

/-- The result-attribution loop of `monitor_token` (src/main2.py lines
245-251): for each index `i` into the gathered `results`, the source looks
up `[n for n, _ in all_tokens][i]` — the i-th name of the FULL token list,
not of the filtered fan-out list — and marks that name's message and
(on success) `exit_success` entry. -/
def fanout_attribution (all_names : List String) (results : List Bool)
    (sm : List (String × String)) (es : List String) :
    List (String × String) × List String :=
  results.enum.foldl
    (fun acc p =>
      let other_nama := all_names.getD p.1 ""
      if p.2 then
        ((other_nama, "Berhasil keluar dari server") :: acc.1, other_nama :: acc.2)
      else
        ((other_nama, "Gagal keluar dari server") :: acc.1, acc.2))
    (sm, es)

/-- The whole fan-out block of the ban branch (src/main2.py lines 235-251):
annotate each target "Proses keluar dari server", issue one leave call per
target (outcome given by the `leave_result` oracle, which abstracts
`leave_server` on that token's stream for the fixed guild id), then run the
attribution loop over the gathered results.  Status-message writes are
modelled by consing: a later write shadows an earlier one for the same key. -/
def run_fanout (all_tokens : List Credential) (nama : String)
    (initial_status : String → MembershipStatus) (leave_result : String → Bool)
    (sm0 : List (String × String)) (es0 : List String) : FanoutOutcome :=
  let targets := fanout_targets all_tokens nama initial_status
  let sm1 := targets.foldl (fun sm p => (p.1, "Proses keluar dari server") :: sm) sm0
  let results := targets.map (fun p => leave_result p.1)
  let attributed := fanout_attribution (all_tokens.map Prod.fst) results sm1 es0
  ⟨targets, attributed.1, attributed.2⟩

/-- The local variables of one `monitor_token` invocation while its loop is
live: `last_status`, `status_messages`, `exit_success` (src/main2.py lines
184-186).  The two dictionaries are local to the invocation. -/
structure LoopState where
  last_status : MembershipStatus
  status_messages : List (String × String)
  exit_success : List String
deriving DecidableEq, Repr

/-- Control state of one poller: `skipped` (returned immediately because the
credential was not in the server at session start, lines 179-182), `looping`
(inside the `while monitoring_active[0]` loop), or `stopped` (the loop has
exited; the final local state is carried so the run's outcome can be read
off). -/
inductive PollerState where
  | skipped
  | looping (ls : LoopState)
  | stopped (ls : LoopState)
deriving DecidableEq, Repr

/-- Ghost record of one leave request issued during a fan-out: which poller
issued it, which token it was issued for, and the value of the shared
`monitoring_active` flag at the moment the request was issued. -/
structure LeaveEvent where
  issuer : String
  target : String
  active_at_issue : Bool
deriving DecidableEq, Repr

/-- Result of one loop iteration of one poller. -/
structure StepResult where
  poller : PollerState
  active : Bool
  events : List LeaveEvent
  checked : Bool
deriving DecidableEq, Repr

/-- One iteration of `monitor_token`'s polling loop (src/main2.py lines
222-294) for the poller of credential `nama`, given the shared flag value
and the `MembershipStatus` its `check_server_membership` call observes this
iteration.  `skipped` and `stopped` pollers do nothing.  A looping poller
first re-reads the loop condition; with the flag false it returns its local
`exit_success`.  Otherwise it performs the membership check, compares with
`last_status`, and follows the source's branch order: invalid first (log,
annotate, keep polling), then the ban branch (annotate itself, run the
fan-out, set the shared flag false, break), else just record the new
status.  The rendering block mutates nothing and is omitted.
CAVEAT: this coarse model makes a whole loop iteration one atomic step,
although the source suspends at the awaited membership call (line 223) and
inside the fan-out's gather (line 244), so in the program the shared flag
can change mid-iteration.  It is therefore used only for claims whose
hypotheses make the granularity harmless (C3's single-change hypothesis,
C6's skip guard, C7's locality of per-invocation locals).  The refined
model (`AsyncPollerState`, `async_sys_step` below) splits the iteration at
the line-223 suspension point and is used for the latch-ordering claim C2,
where the interleaving matters. -/
def poller_step (all_tokens : List Credential)
    (initial_status : String → MembershipStatus) (leave_result : String → Bool)
    (nama : String) (status : MembershipStatus)
    (active : Bool) (ps : PollerState) : StepResult :=
  match ps with
  | PollerState.skipped => ⟨ps, active, [], false⟩
  | PollerState.stopped ls => ⟨PollerState.stopped ls, active, [], false⟩
  | PollerState.looping ls =>
    if ¬ active then ⟨PollerState.stopped ls, active, [], false⟩
    else
      if status ≠ ls.last_status then
        if ¬ status.valid then
          ⟨PollerState.looping ⟨status, (nama, "Token tidak valid") :: ls.status_messages,
            ls.exit_success⟩, active, [], true⟩
        else if ¬ status.in_server ∧ ls.last_status.in_server then
          let sm0 := (nama, "Banned/Kicked dari server") :: ls.status_messages
          let out := run_fanout all_tokens nama initial_status leave_result sm0 ls.exit_success
          ⟨PollerState.stopped ⟨ls.last_status, out.status_messages, out.exit_success⟩, false,
            out.targets.map (fun p => ⟨nama, p.1, active⟩), true⟩
        else
          ⟨PollerState.looping ⟨status, ls.status_messages, ls.exit_success⟩, active, [], true⟩
      else
        ⟨PollerState.looping ls, active, [], true⟩

/-- Shared run state: the `monitoring_active` latch (the ONLY mutable state
shared between pollers in the source), the per-poller control/local states
keyed by token name, and two ghost logs: every leave request issued and the
name of every poller that performed a membership check. -/
structure SysState where
  monitoring_active : Bool
  pollers : List (String × PollerState)
  leave_log : List LeaveEvent
  check_log : List String
deriving DecidableEq, Repr

/-- One scheduler step: the poller at index `ev.1` runs one loop iteration
observing membership status `ev.2`.  An out-of-range index is a no-op. -/
def sys_step (all_tokens : List Credential)
    (initial_status : String → MembershipStatus) (leave_result : String → Bool)
    (st : SysState) (ev : Nat × MembershipStatus) : SysState :=
  match st.pollers.get? ev.1 with
  | none => st
  | some (nama, ps) =>
    let r := poller_step all_tokens initial_status leave_result nama ev.2
      st.monitoring_active ps
    { monitoring_active := r.active
      pollers := st.pollers.set ev.1 (nama, r.poller)
      leave_log := st.leave_log ++ r.events
      check_log := st.check_log ++ (if r.checked then [nama] else []) }

/-- Entry of `monitor_token` (src/main2.py lines 179-184): a credential
whose initial status was not `in_server` returns at once (`skipped`); the
others enter the loop with `last_status` seeded from `initial_status` and
empty local dictionaries. -/
def init_poller (initial_status : String → MembershipStatus) (nama : String) : PollerState :=
  if (initial_status nama).in_server then
    PollerState.looping ⟨initial_status nama, [], []⟩
  else PollerState.skipped

/-- Start of the monitoring phase (src/main2.py lines 331, 362-366):
`monitoring_active = [True]` and one poller per credential. -/
def init_sys (all_tokens : List Credential)
    (initial_status : String → MembershipStatus) : SysState :=
  ⟨true, all_tokens.map (fun p => (p.1, init_poller initial_status p.1)), [], []⟩

/-- A whole interleaved run: fold the scheduler steps of `script` from the
initial state. -/
def run_sys (all_tokens : List Credential)
    (initial_status : String → MembershipStatus) (leave_result : String → Bool)
    (script : List (Nat × MembershipStatus)) : SysState :=
  script.foldl (sys_step all_tokens initial_status leave_result)
    (init_sys all_tokens initial_status)

/-- A poller state that can take no further loop iteration. -/
def is_terminal : PollerState → Bool
  | PollerState.looping _ => false
  | _ => true

/-- Decidable check that a scheduler entry observes exactly the credential's
initial status (used to say a credential's live status has not changed). -/
def obs_initial (all_tokens : List Credential)
    (initial_status : String → MembershipStatus) (e : Nat × MembershipStatus) : Bool :=
  match all_tokens.get? e.1 with
  | some p => decide (e.2 = initial_status p.1)
  | none => true

/-- Embeds `validate_tokens` (src/main2.py lines 119-149): walks the input in
order, appending each credential to `valid_tokens` or `invalid_tokens`
according to its `check_token_validity` outcome (abstracted here as the
oracle `ok`, the Boolean that call returns for this credential's session),
and returns `valid_tokens + invalid_tokens`. -/
def validate_tokens (tokens : List Credential) (ok : Credential → Bool) : List Credential :=
  tokens.filter ok ++ tokens.filter (fun t => !(ok t))

/-- Observable outcome of one `main()` invocation (src/main2.py lines
296-431): the process exit code, whether a configuration error was raised
(and its message printed), and whether the monitoring phase was reached. -/
structure MainOutcome where
  exit_code : Nat
  config_error : Bool
  monitoring_started : Bool
deriving DecidableEq, Repr

/-- The guild-id gate of `main` (src/main2.py line 325):
`not guild_id or not guild_id.isdigit()` raises the configuration error.
`gid` models the operator's input after `.strip()`; digits are modelled as
the decimal digits the numeric server id consists of. -/
def guild_id_ok (gid : String) : Bool :=
  !gid.isEmpty && gid.toList.all Char.isDigit

/-- Control flow of `main` (src/main2.py lines 303-326 and 424-431) up to
the start of monitoring.  `token.txt` lines without a `:` are dropped by
the loader (line 306); an empty token list or a rejected guild id raises
`ValueError`, which the `except Exception` handler at line 424 catches and
prints — after which `main` returns normally, so `asyncio.run(main())`
and the process finish with exit code 0 on every path (the
`KeyboardInterrupt` handler at lines 430-431 also just prints). -/
def main_outcome (token_lines : List String) (gid : String) : MainOutcome :=
  let tokens := token_lines.filter (fun l => l.contains ':')
  if tokens.isEmpty then ⟨0, true, false⟩
  else if !(guild_id_ok gid) then ⟨0, true, false⟩
  else ⟨0, false, true⟩

/-- Control state of one poller in the REFINED interleaving model, which
splits each `while monitoring_active[0]` iteration at the suspension point
of the awaited `check_server_membership` call (src/main2.py line 223):
`at_loop_top` — about to re-read the shared flag at line 222;
`in_flight` — past the loop-top check, its membership request awaited;
`skipped` / `stopped` as in the coarse model.  Between a poller's loop-top
check and the delivery of its membership result, other pollers can run and
the shared flag can change. -/
inductive AsyncPollerState where
  | skipped
  | at_loop_top (ls : LoopState)
  | in_flight (ls : LoopState)
  | stopped (ls : LoopState)
deriving DecidableEq, Repr

/-- One scheduler event of the refined model: `loop_top i` lets poller `i`
execute the loop-top flag check of line 222 (issuing its membership request
when the flag is true); `deliver i status` resumes poller `i`'s awaited
membership call with the observed status and runs the rest of the loop
body (lines 226-256). -/
inductive AsyncEv where
  | loop_top (i : Nat)
  | deliver (i : Nat) (status : MembershipStatus)
deriving DecidableEq, Repr

/-- Result of a loop-top step: the poller's new control state and whether
a membership request was issued. -/
structure AsyncTopResult where
  poller : AsyncPollerState
  checked : Bool
deriving DecidableEq, Repr

/-- Result of a delivery step: the poller's new control state, the shared
flag afterwards, and the leave requests issued. -/
structure AsyncDeliverResult where
  poller : AsyncPollerState
  active : Bool
  events : List LeaveEvent
deriving DecidableEq, Repr

/-- Loop-top step (src/main2.py line 222): a poller at the loop top stops
(returning its local `exit_success`) when the shared flag is false, and
otherwise issues its membership request and suspends.  Other control
states take no loop-top step. -/
def async_poller_top (active : Bool) (ps : AsyncPollerState) : AsyncTopResult :=
  match ps with
  | AsyncPollerState.at_loop_top ls =>
    if ¬ active then ⟨AsyncPollerState.stopped ls, false⟩
    else ⟨AsyncPollerState.in_flight ls, true⟩
  | other => ⟨other, false⟩

/-- Delivery step (src/main2.py lines 226-256): the body after the awaited
membership check, with the source's branch order — invalid first (annotate,
back to the loop top), then the ban branch (annotate itself, run the
fan-out, THEN set the shared flag false, break), else record the new
status and return to the loop top.  Note the ban branch performs NO flag
check: it runs regardless of the current flag value, and the flag write
comes after the fan-out.  `active` is the shared flag value at resumption;
the issued leave events record it. -/
def async_deliver (all_tokens : List Credential)
    (initial_status : String → MembershipStatus) (leave_result : String → Bool)
    (nama : String) (status : MembershipStatus) (active : Bool)
    (ps : AsyncPollerState) : AsyncDeliverResult :=
  match ps with
  | AsyncPollerState.in_flight ls =>
    if status ≠ ls.last_status then
      if ¬ status.valid then
        ⟨AsyncPollerState.at_loop_top ⟨status,
          (nama, "Token tidak valid") :: ls.status_messages, ls.exit_success⟩, active, []⟩
      else if ¬ status.in_server ∧ ls.last_status.in_server then
        let sm0 := (nama, "Banned/Kicked dari server") :: ls.status_messages
        let out := run_fanout all_tokens nama initial_status leave_result sm0 ls.exit_success
        ⟨AsyncPollerState.stopped ⟨ls.last_status, out.status_messages, out.exit_success⟩,
          false, out.targets.map (fun p => ⟨nama, p.1, active⟩)⟩
      else
        ⟨AsyncPollerState.at_loop_top ⟨status, ls.status_messages, ls.exit_success⟩,
          active, []⟩
    else ⟨AsyncPollerState.at_loop_top ls, active, []⟩
  | other => ⟨other, active, []⟩

/-- Shared run state of the refined model (same shared data as the coarse
model: only `monitoring_active` is shared between pollers, plus ghost
logs). -/
structure AsyncSysState where
  monitoring_active : Bool
  pollers : List (String × AsyncPollerState)
  leave_log : List LeaveEvent
  check_log : List String
deriving DecidableEq, Repr

/-- One step of the refined system.  An out-of-range index is a no-op. -/
def async_sys_step (all_tokens : List Credential)
    (initial_status : String → MembershipStatus) (leave_result : String → Bool)
    (st : AsyncSysState) (ev : AsyncEv) : AsyncSysState :=
  match ev with
  | AsyncEv.loop_top i =>
    match st.pollers.get? i with
    | none => st
    | some (nama, ps) =>
      let r := async_poller_top st.monitoring_active ps
      { monitoring_active := st.monitoring_active
        pollers := st.pollers.set i (nama, r.poller)
        leave_log := st.leave_log
        check_log := st.check_log ++ (if r.checked then [nama] else []) }
  | AsyncEv.deliver i status =>
    match st.pollers.get? i with
    | none => st
    | some (nama, ps) =>
      let r := async_deliver all_tokens initial_status leave_result nama status
        st.monitoring_active ps
      { monitoring_active := r.active
        pollers := st.pollers.set i (nama, r.poller)
        leave_log := st.leave_log ++ r.events
        check_log := st.check_log }

/-- Entry of `monitor_token` in the refined model (src/main2.py lines
179-184), as in the coarse model. -/
def async_init_poller (initial_status : String → MembershipStatus)
    (nama : String) : AsyncPollerState :=
  if (initial_status nama).in_server then
    AsyncPollerState.at_loop_top ⟨initial_status nama, [], []⟩
  else AsyncPollerState.skipped

/-- Start of the monitoring phase in the refined model. -/
def async_init_sys (all_tokens : List Credential)
    (initial_status : String → MembershipStatus) : AsyncSysState :=
  ⟨true, all_tokens.map (fun p => (p.1, async_init_poller initial_status p.1)), [], []⟩

/-- A whole run of the refined model. -/
def async_run_sys (all_tokens : List Credential)
    (initial_status : String → MembershipStatus) (leave_result : String → Bool)
    (script : List AsyncEv) : AsyncSysState :=
  script.foldl (async_sys_step all_tokens initial_status leave_result)
    (async_init_sys all_tokens initial_status)

theorem list_set_get?_self {α : Type} :
    ∀ (l : List α) (i : Nat) (a : α), l.get? i = some a → l.set i a = l := by
  intro l
  induction l with
  | nil => intro i a h; simp at h
  | cons hd tl ih =>
    intro i a h
    cases i with
    | zero =>
      simp only [List.get?] at h
      cases h
      rfl
    | succ i =>
      simp only [List.get?] at h
      simp only [List.set]
      rw [ih i a h]

theorem fanout_targets_mem {all_tokens : List Credential} {nama : String}
    {initial_status : String → MembershipStatus} {p : Credential}
    (h : p ∈ fanout_targets all_tokens nama initial_status) :
    p ∈ all_tokens ∧ p.1 ≠ nama ∧ (initial_status p.1).in_server = true := by
  unfold fanout_targets at h
  have h1 := List.mem_filter.mp h
  refine ⟨h1.1, ?_, ?_⟩
  · have := h1.2
    simp only [Bool.and_eq_true, decide_eq_true_eq] at this
    exact this.1
  · have := h1.2
    simp only [Bool.and_eq_true, decide_eq_true_eq] at this
    exact this.2

theorem poller_step_events_spec (all_tokens : List Credential)
    (initial_status : String → MembershipStatus) (leave_result : String → Bool)
    (nama : String) (status : MembershipStatus) (active : Bool) (ps : PollerState) :
    ∀ e ∈ (poller_step all_tokens initial_status leave_result nama status active ps).events,
      e.issuer = nama ∧ e.active_at_issue = true ∧ e.target ≠ nama ∧
      (initial_status e.target).in_server = true := by
  intro e he
  unfold poller_step at he
  cases ps with
  | skipped => simp at he
  | stopped ls => simp at he
  | looping ls =>
    by_cases hact : active
    · simp only [hact, not_true_eq_false, if_false] at he
      by_cases hch : status ≠ ls.last_status
      · rw [if_pos hch] at he
        by_cases hval : ¬ status.valid
        · rw [if_pos hval] at he
          simp at he
        · rw [if_neg hval] at he
          by_cases hban : ¬ status.in_server ∧ ls.last_status.in_server
          · rw [if_pos hban] at he
            simp only [List.mem_map] at he
            obtain ⟨p, hp, he⟩ := he
            have hspec := fanout_targets_mem hp
            subst he
            exact ⟨rfl, by simp [hact], hspec.2.1, hspec.2.2⟩
          · rw [if_neg hban] at he
            simp at he
      · rw [if_neg hch] at he
        simp at he
    · have : active = false := by
        cases active
        · rfl
        · exact absurd rfl hact
      subst this
      simp at he

theorem poller_step_skipped (all_tokens : List Credential)
    (initial_status : String → MembershipStatus) (leave_result : String → Bool)
    (nama : String) (status : MembershipStatus) (active : Bool) :
    poller_step all_tokens initial_status leave_result nama status active PollerState.skipped =
      ⟨PollerState.skipped, active, [], false⟩ := rfl

theorem poller_step_unchanged (all_tokens : List Credential)
    (initial_status : String → MembershipStatus) (leave_result : String → Bool)
    (nama : String) (ls : LoopState) :
    poller_step all_tokens initial_status leave_result nama ls.last_status true
      (PollerState.looping ls) = ⟨PollerState.looping ls, true, [], true⟩ := by
  unfold poller_step
  simp

theorem poller_step_ban (all_tokens : List Credential)
    (initial_status : String → MembershipStatus) (leave_result : String → Bool)
    (nama : String) (ls : LoopState) (hin : ls.last_status.in_server = true) :
    poller_step all_tokens initial_status leave_result nama ⟨true, false⟩ true
      (PollerState.looping ls) =
      ⟨PollerState.stopped ⟨ls.last_status,
          (run_fanout all_tokens nama initial_status leave_result
            ((nama, "Banned/Kicked dari server") :: ls.status_messages) ls.exit_success).status_messages,
          (run_fanout all_tokens nama initial_status leave_result
            ((nama, "Banned/Kicked dari server") :: ls.status_messages) ls.exit_success).exit_success⟩,
        false,
        (fanout_targets all_tokens nama initial_status).map (fun p => ⟨nama, p.1, true⟩),
        true⟩ := by
  have hne : (⟨true, false⟩ : MembershipStatus) ≠ ls.last_status := by
    intro hh
    rw [← hh] at hin
    simp at hin
  unfold poller_step
  simp [hne, hin, run_fanout]

theorem sys_step_inactive (all_tokens : List Credential)
    (initial_status : String → MembershipStatus) (leave_result : String → Bool)
    (st : SysState) (ev : Nat × MembershipStatus) (hact : st.monitoring_active = false) :
    (sys_step all_tokens initial_status leave_result st ev).monitoring_active = false ∧
    (sys_step all_tokens initial_status leave_result st ev).leave_log = st.leave_log := by
  unfold sys_step
  cases hget : st.pollers.get? ev.1 with
  | none => exact ⟨hact, rfl⟩
  | some q =>
    obtain ⟨nama, ps⟩ := q
    cases ps with
    | skipped => simp [poller_step, hact]
    | stopped ls => simp [poller_step, hact]
    | looping ls => simp [poller_step, hact]

theorem sys_step_pollers_length (all_tokens : List Credential)
    (initial_status : String → MembershipStatus) (leave_result : String → Bool)
    (st : SysState) (ev : Nat × MembershipStatus) :
    (sys_step all_tokens initial_status leave_result st ev).pollers.length =
      st.pollers.length := by
  unfold sys_step
  cases hget : st.pollers.get? ev.1 with
  | none => rfl
  | some q => simp

theorem sys_step_other_poller (all_tokens : List Credential)
    (initial_status : String → MembershipStatus) (leave_result : String → Bool)
    (st : SysState) (ev : Nat × MembershipStatus) (j : Nat) (hj : j ≠ ev.1) :
    (sys_step all_tokens initial_status leave_result st ev).pollers.get? j =
      st.pollers.get? j := by
  unfold sys_step
  cases hget : st.pollers.get? ev.1 with
  | none => rfl
  | some q =>
    simp only [List.get?_eq_getElem?]
    exact List.getElem?_set_ne (fun hh => hj hh.symm)

def terminal_at (st : SysState) (j : Nat) : Prop :=
  ∀ q, st.pollers.get? j = some q → is_terminal q.2 = true

theorem sys_step_inactive_terminal (all_tokens : List Credential)
    (initial_status : String → MembershipStatus) (leave_result : String → Bool)
    (st : SysState) (ev : Nat × MembershipStatus) (hact : st.monitoring_active = false) :
    terminal_at (sys_step all_tokens initial_status leave_result st ev) ev.1 := by
  intro q hq
  unfold sys_step at hq
  cases hget : st.pollers.get? ev.1 with
  | none =>
    rw [hget] at hq
    simp only at hq
    rw [hget] at hq
    cases hq
  | some q0 =>
    rw [hget] at hq
    obtain ⟨nama, ps⟩ := q0
    simp only at hq
    have hlen : ev.1 < st.pollers.length := by
      by_contra hc
      rw [List.get?_eq_getElem?, List.getElem?_eq_none (Nat.le_of_not_lt hc)] at hget
      cases hget
    rw [List.get?_eq_getElem?] at hq
    rw [List.getElem?_set_self (by simpa using hlen)] at hq
    cases hq
    cases ps with
    | skipped => simp [poller_step, hact, is_terminal]
    | stopped ls => simp [poller_step, hact, is_terminal]
    | looping ls => simp [poller_step, hact, is_terminal]

theorem sys_step_terminal_preserve (all_tokens : List Credential)
    (initial_status : String → MembershipStatus) (leave_result : String → Bool)
    (st : SysState) (ev : Nat × MembershipStatus) (j : Nat)
    (hact : st.monitoring_active = false) (ht : terminal_at st j) :
    terminal_at (sys_step all_tokens initial_status leave_result st ev) j := by
  by_cases hj : j = ev.1
  · subst hj
    exact sys_step_inactive_terminal all_tokens initial_status leave_result st ev hact
  · intro q hq
    rw [sys_step_other_poller all_tokens initial_status leave_result st ev j hj] at hq
    exact ht q hq

theorem run_absorb (all_tokens : List Credential)
    (initial_status : String → MembershipStatus) (leave_result : String → Bool) :
    ∀ (s2 : List (Nat × MembershipStatus)) (st : SysState),
      st.monitoring_active = false →
      (s2.foldl (sys_step all_tokens initial_status leave_result) st).monitoring_active = false ∧
      (s2.foldl (sys_step all_tokens initial_status leave_result) st).leave_log = st.leave_log ∧
      (s2.foldl (sys_step all_tokens initial_status leave_result) st).pollers.length =
        st.pollers.length ∧
      (∀ j, (terminal_at st j ∨ j ∈ s2.map Prod.fst) →
        terminal_at (s2.foldl (sys_step all_tokens initial_status leave_result) st) j) := by
  intro s2
  induction s2 with
  | nil =>
    intro st hact
    refine ⟨hact, rfl, rfl, ?_⟩
    intro j hj
    cases hj with
    | inl h => exact h
    | inr h => simp at h
  | cons ev s2 ih =>
    intro st hact
    have hstep := sys_step_inactive all_tokens initial_status leave_result st ev hact
    have ihr := ih (sys_step all_tokens initial_status leave_result st ev) hstep.1
    refine ⟨ihr.1, ?_, ?_, ?_⟩
    · rw [List.foldl_cons] at *
      rw [ihr.2.1, hstep.2]
    · rw [List.foldl_cons] at *
      rw [ihr.2.2.1, sys_step_pollers_length]
    · intro j hj
      rw [List.foldl_cons]
      apply ihr.2.2.2
      cases hj with
      | inl h =>
        exact Or.inl (sys_step_terminal_preserve all_tokens initial_status leave_result
          st ev j hact h)
      | inr h =>
        simp only [List.map_cons, List.mem_cons] at h
        cases h with
        | inl h =>
          subst h
          exact Or.inl (sys_step_inactive_terminal all_tokens initial_status leave_result
            st ev hact)
        | inr h => exact Or.inr h

theorem sys_step_stutter (all_tokens : List Credential)
    (initial_status : String → MembershipStatus) (leave_result : String → Bool)
    (st : SysState) (ev : Nat × MembershipStatus)
    (hact : st.monitoring_active = true)
    (hps : st.pollers = (init_sys all_tokens initial_status).pollers)
    (hobs : obs_initial all_tokens initial_status ev = true) :
    (sys_step all_tokens initial_status leave_result st ev).monitoring_active = true ∧
    (sys_step all_tokens initial_status leave_result st ev).pollers = st.pollers ∧
    (sys_step all_tokens initial_status leave_result st ev).leave_log = st.leave_log := by
  cases hga : all_tokens.get? ev.1 with
  | none =>
    have hget : st.pollers.get? ev.1 = none := by
      rw [hps]
      simp only [init_sys]
      rw [List.get?_map, hga]
      rfl
    unfold sys_step
    rw [hget]
    exact ⟨hact, rfl, rfl⟩
  | some p =>
    have hget : st.pollers.get? ev.1 = some (p.1, init_poller initial_status p.1) := by
      rw [hps]
      simp only [init_sys]
      rw [List.get?_map, hga]
      rfl
    have heq : ev.2 = initial_status p.1 := by
      unfold obs_initial at hobs
      rw [hga] at hobs
      exact of_decide_eq_true hobs
    by_cases hin : (initial_status p.1).in_server = true
    · have hpoll : init_poller initial_status p.1 =
          PollerState.looping ⟨initial_status p.1, [], []⟩ := by
        unfold init_poller
        rw [if_pos hin]
      have hstep : poller_step all_tokens initial_status leave_result p.1 ev.2
          st.monitoring_active (init_poller initial_status p.1) =
          ⟨PollerState.looping ⟨initial_status p.1, [], []⟩, true, [], true⟩ := by
        rw [hpoll, hact, heq]
        exact poller_step_unchanged all_tokens initial_status leave_result p.1 _
      unfold sys_step
      rw [hget]
      simp only [hstep]
      refine ⟨?_, ?_, ?_⟩
      · simp
      · rw [← hpoll]
        exact list_set_get?_self st.pollers ev.1 _ hget
      · simp
    · have hpoll : init_poller initial_status p.1 = PollerState.skipped := by
        unfold init_poller
        rw [if_neg hin]
      rw [hpoll] at hget
      unfold sys_step
      rw [hget]
      simp only [poller_step_skipped]
      refine ⟨?_, ?_, ?_⟩
      · simp [hact]
      · exact list_set_get?_self st.pollers ev.1 _ hget
      · simp

theorem run_stutter (all_tokens : List Credential)
    (initial_status : String → MembershipStatus) (leave_result : String → Bool) :
    ∀ (s1 : List (Nat × MembershipStatus)) (st : SysState),
      st.monitoring_active = true →
      st.pollers = (init_sys all_tokens initial_status).pollers →
      (∀ e ∈ s1, obs_initial all_tokens initial_status e = true) →
      (s1.foldl (sys_step all_tokens initial_status leave_result) st).monitoring_active = true ∧
      (s1.foldl (sys_step all_tokens initial_status leave_result) st).pollers = st.pollers ∧
      (s1.foldl (sys_step all_tokens initial_status leave_result) st).leave_log = st.leave_log := by
  intro s1
  induction s1 with
  | nil =>
    intro st h1 h2 h3
    exact ⟨h1, rfl, rfl⟩
  | cons ev s1 ih =>
    intro st h1 h2 h3
    have hstep := sys_step_stutter all_tokens initial_status leave_result st ev h1 h2
      (h3 ev (List.mem_cons_self _ _))
    have ihr := ih (sys_step all_tokens initial_status leave_result st ev) hstep.1
      (by rw [hstep.2.1, h2]) (fun e he => h3 e (List.mem_cons_of_mem _ he))
    rw [List.foldl_cons]
    refine ⟨ihr.1, ?_, ?_⟩
    · rw [ihr.2.1, hstep.2.1]
    · rw [ihr.2.2, hstep.2.2]

theorem sys_step_ban (all_tokens : List Credential)
    (initial_status : String → MembershipStatus) (leave_result : String → Bool)
    (st : SysState) (iL : Nat) (L : String)
    (hact : st.monitoring_active = true)
    (hps : st.pollers = (init_sys all_tokens initial_status).pollers)
    (hiL : (all_tokens.get? iL).map Prod.fst = some L)
    (hinL : (initial_status L).in_server = true) :
    (sys_step all_tokens initial_status leave_result st
      (iL, ⟨true, false⟩)).monitoring_active = false ∧
    (sys_step all_tokens initial_status leave_result st (iL, ⟨true, false⟩)).leave_log =
      st.leave_log ++
        (fanout_targets all_tokens L initial_status).map (fun p => ⟨L, p.1, true⟩) ∧
    terminal_at (sys_step all_tokens initial_status leave_result st (iL, ⟨true, false⟩)) iL := by
  obtain ⟨p, hp, hpL⟩ : ∃ p, all_tokens.get? iL = some p ∧ p.1 = L := by
    cases hga : all_tokens.get? iL with
    | none => rw [hga] at hiL; cases hiL
    | some p =>
      rw [hga] at hiL
      exact ⟨p, rfl, Option.some.inj hiL⟩
  have hget : st.pollers.get? iL = some (L, init_poller initial_status L) := by
    rw [hps]
    simp only [init_sys]
    rw [List.get?_map, hp]
    simp [hpL]
  have hpoll : init_poller initial_status L =
      PollerState.looping ⟨initial_status L, [], []⟩ := by
    unfold init_poller
    rw [if_pos hinL]
  rw [hpoll] at hget
  have hlen : iL < st.pollers.length := by
    by_contra hc
    rw [List.get?_eq_getElem?, List.getElem?_eq_none (Nat.le_of_not_lt hc)] at hget
    cases hget
  have hstep := poller_step_ban all_tokens initial_status leave_result L
    ⟨initial_status L, [], []⟩ hinL
  unfold sys_step
  rw [hget, hact]
  simp only [hstep]
  refine ⟨?_, ?_, ?_⟩
  · simp
  · simp
  intro q hq
  simp only [List.get?_eq_getElem?] at hq
  rw [List.getElem?_set_self (by simpa using hlen)] at hq
  cases hq
  rfl

theorem mem_fanout_names {all_tokens : List Credential} {nama M : String}
    {initial_status : String → MembershipStatus} :
    M ∈ (fanout_targets all_tokens nama initial_status).map Prod.fst ↔
      ∃ tk, (M, tk) ∈ all_tokens ∧ M ≠ nama ∧ (initial_status M).in_server = true := by
  constructor
  · intro h
    obtain ⟨p, hp, hfst⟩ := List.mem_map.mp h
    have hspec := fanout_targets_mem hp
    subst hfst
    exact ⟨p.2, hspec.1, hspec.2.1, hspec.2.2⟩
  · intro h
    obtain ⟨tk, hmem, hne, hin⟩ := h
    refine List.mem_map.mpr ⟨(M, tk), List.mem_filter.mpr ⟨hmem, ?_⟩, rfl⟩
    simp [hne, hin]

theorem fanout_names_nodup {all_tokens : List Credential} {nama : String}
    {initial_status : String → MembershipStatus}
    (hnodup : (all_tokens.map Prod.fst).Nodup) :
    ((fanout_targets all_tokens nama initial_status).map Prod.fst).Nodup :=
  hnodup.sublist (List.Sublist.map Prod.fst (List.filter_sublist all_tokens))

/-- Claim C1 (code bug).  The claim says a credential is added to
`exit_success` only when the leave call issued for that same credential
succeeded, and that a credential skipped from the fan-out never appears.
The source's attribution loop (lines 245-251) indexes the gathered results
into `all_tokens` instead of into the filtered fan-out list.  Concretely:
with `all_tokens = [A, B]`, both initially in the server, `A` detecting the
ban, the only leave call is issued for `B`; yet when it succeeds the result
is attributed to `all_tokens[0] = A`: `exit_success = ["A"]` even though no
leave call was ever issued for `A` (it was skipped from the fan-out), and
`B`, whose leave succeeded, is never recorded. -/
theorem C1_fanout_misattribution :
    (run_fanout [("A", "ta"), ("B", "tb")] "A" (fun _ => ⟨true, true⟩)
      (fun _ => true) [] []).targets.map Prod.fst = ["B"] ∧
    (run_fanout [("A", "ta"), ("B", "tb")] "A" (fun _ => ⟨true, true⟩)
      (fun _ => true) [] []).exit_success = ["A"] ∧
    "B" ∉ (run_fanout [("A", "ta"), ("B", "tb")] "A" (fun _ => ⟨true, true⟩)
      (fun _ => true) [] []).exit_success := by
  refine ⟨rfl, rfl, ?_⟩
  decide

theorem async_deliver_ban (all_tokens : List Credential)
    (initial_status : String → MembershipStatus) (leave_result : String → Bool)
    (nama : String) (ls : LoopState) (active : Bool)
    (hin : ls.last_status.in_server = true) :
    async_deliver all_tokens initial_status leave_result nama ⟨true, false⟩ active
      (AsyncPollerState.in_flight ls) =
      ⟨AsyncPollerState.stopped ⟨ls.last_status,
          (run_fanout all_tokens nama initial_status leave_result
            ((nama, "Banned/Kicked dari server") :: ls.status_messages)
            ls.exit_success).status_messages,
          (run_fanout all_tokens nama initial_status leave_result
            ((nama, "Banned/Kicked dari server") :: ls.status_messages)
            ls.exit_success).exit_success⟩,
        false,
        (fanout_targets all_tokens nama initial_status).map (fun p => ⟨nama, p.1, active⟩)⟩ := by
  have hne : (⟨true, false⟩ : MembershipStatus) ≠ ls.last_status := by
    intro hh
    rw [← hh] at hin
    simp at hin
  unfold async_deliver
  simp [hne, hin, run_fanout]

theorem async_poller_top_inactive (ls : LoopState) :
    async_poller_top false (AsyncPollerState.at_loop_top ls) =
      ⟨AsyncPollerState.stopped ls, false⟩ := rfl

/-- Claim C2 (counterexample), over the refined model that splits each loop
iteration at the awaited membership call of line 223.  The claim states the
detecting poller latches `active = false` BEFORE issuing any leave request,
and that a second poller reaching its own ban branch after the first's
write sees the flag and performs no fan-out, so that no leave request is
ever issued while the flag is still true.  Both parts fail on this run:
`A` and `B` (both initially in the server) each pass their loop-top check
and have membership requests in flight; `A`'s ban delivery arrives first,
its fan-out issues the leave for `B` while the flag is STILL TRUE (the
latch at line 253 runs only after the gather at line 244), and then `B`'s
ban delivery arrives — the ban branch performs no flag re-check (the flag
is read only at the loop top, line 222), so `B` fans out a second time,
after the latch. -/
theorem C2_counterexample :
    (async_run_sys [("A", "ta"), ("B", "tb")] (fun _ => ⟨true, true⟩) (fun _ => true)
      [AsyncEv.loop_top 0, AsyncEv.loop_top 1,
       AsyncEv.deliver 0 ⟨true, false⟩, AsyncEv.deliver 1 ⟨true, false⟩]).leave_log =
      [{ issuer := "A", target := "B", active_at_issue := true },
       { issuer := "B", target := "A", active_at_issue := false }] := rfl

/-- Claim C2 (amended), over the refined model.  What the code actually
does: (1) the ban branch issues its fan-out leave requests first and
writes `active = false` only afterwards, and it contains no flag check —
the delivery step below fires for ANY current flag value (no hypothesis on
`st.monitoring_active`), emits exactly the fan-out's leave requests
(recorded with the flag value at resumption) and leaves the flag false;
so the first detector issues its leaves while the flag is still true,
while a second poller whose membership check was already in flight when
the first latched still fans out after the latch (see the counterexample).
(2) The flag is consulted only at the loop top: a poller that observes
`active == false` there stops at once, issuing no membership check and no
leave request. -/
theorem C2_amended :
    (∀ (all_tokens : List Credential) (initial_status : String → MembershipStatus)
      (leave_result : String → Bool) (st : AsyncSysState) (i : Nat) (nm : String)
      (ls : LoopState),
      st.pollers.get? i = some (nm, AsyncPollerState.in_flight ls) →
      ls.last_status.in_server = true →
      (async_sys_step all_tokens initial_status leave_result st
        (AsyncEv.deliver i ⟨true, false⟩)).monitoring_active = false ∧
      (async_sys_step all_tokens initial_status leave_result st
        (AsyncEv.deliver i ⟨true, false⟩)).leave_log =
        st.leave_log ++ (fanout_targets all_tokens nm initial_status).map
          (fun p => ⟨nm, p.1, st.monitoring_active⟩)) ∧
    (∀ (all_tokens : List Credential) (initial_status : String → MembershipStatus)
      (leave_result : String → Bool) (st : AsyncSysState) (i : Nat) (nm : String)
      (ls : LoopState),
      st.pollers.get? i = some (nm, AsyncPollerState.at_loop_top ls) →
      st.monitoring_active = false →
      (async_sys_step all_tokens initial_status leave_result st
        (AsyncEv.loop_top i)).pollers.get? i = some (nm, AsyncPollerState.stopped ls) ∧
      (async_sys_step all_tokens initial_status leave_result st
        (AsyncEv.loop_top i)).leave_log = st.leave_log ∧
      (async_sys_step all_tokens initial_status leave_result st
        (AsyncEv.loop_top i)).check_log = st.check_log) := by
  constructor
  · intro all_tokens initial_status leave_result st i nm ls hget hin
    unfold async_sys_step
    dsimp only
    rw [hget]
    dsimp only
    rw [async_deliver_ban all_tokens initial_status leave_result nm ls
      st.monitoring_active hin]
    exact ⟨rfl, rfl⟩
  · intro all_tokens initial_status leave_result st i nm ls hget hact
    have hlen : i < st.pollers.length := by
      by_contra hc
      rw [List.get?_eq_getElem?, List.getElem?_eq_none (Nat.le_of_not_lt hc)] at hget
      cases hget
    unfold async_sys_step
    dsimp only
    rw [hget, hact]
    dsimp only
    rw [async_poller_top_inactive]
    refine ⟨?_, rfl, ?_⟩
    · simp only [List.get?_eq_getElem?]
      rw [List.getElem?_set_self (by simpa using hlen)]
    · simp

/-- Witness for the amended C2: after `A`'s latch, `B` — back at its loop
top — observes the false flag and stops without issuing anything. -/
theorem C2_amended_witness :
    (async_sys_step [("A", "ta"), ("B", "tb")] (fun _ => ⟨true, true⟩) (fun _ => true)
      (async_run_sys [("A", "ta"), ("B", "tb")] (fun _ => ⟨true, true⟩) (fun _ => true)
        [AsyncEv.loop_top 0, AsyncEv.deliver 0 ⟨true, false⟩])
      (AsyncEv.loop_top 1)).pollers.get? 1 =
      some ("B", AsyncPollerState.stopped ⟨⟨true, true⟩, [], []⟩) :=
  (C2_amended.2 [("A", "ta"), ("B", "tb")] (fun _ => ⟨true, true⟩) (fun _ => true)
    (async_run_sys [("A", "ta"), ("B", "tb")] (fun _ => ⟨true, true⟩) (fun _ => true)
      [AsyncEv.loop_top 0, AsyncEv.deliver 0 ⟨true, false⟩])
    1 "B" ⟨⟨true, true⟩, [], []⟩ (by decide) (by decide)).1

/-- Claim C3 (confirmed).  A run in which exactly one credential's live
status changes — every observation in `s1` equals the observed credential's
initial status, then the poller of `L` (initially in the server) observes
the ban status `{valid: true, in_server: false}`, and afterwards (`s2`)
every poller gets scheduled at least once — ends with: the leave log being
exactly one leave request, issued for each OTHER credential whose initial
status had `in_server == true`; so each such credential receives exactly
one leave invocation, the detecting credential `L` receives none, every
credential that did not start in the server receives none, and every
poller is terminal (`Skipped` or `Stopped`). -/
theorem C3_single_ban_exactly_one_leave
    (all_tokens : List Credential) (initial_status : String → MembershipStatus)
    (leave_result : String → Bool) (s1 s2 : List (Nat × MembershipStatus))
    (iL : Nat) (L : String)
    (hnodup : (all_tokens.map Prod.fst).Nodup)
    (hiL : (all_tokens.get? iL).map Prod.fst = some L)
    (hinL : (initial_status L).in_server = true)
    (hs1 : ∀ e ∈ s1, obs_initial all_tokens initial_status e = true)
    (hcov : ∀ j, j < all_tokens.length → j ∈ s2.map Prod.fst) :
    (run_sys all_tokens initial_status leave_result
        (s1 ++ (iL, ⟨true, false⟩) :: s2)).leave_log =
      (fanout_targets all_tokens L initial_status).map (fun p => ⟨L, p.1, true⟩) ∧
    (∀ M tk, (M, tk) ∈ all_tokens →
      ((M ≠ L ∧ (initial_status M).in_server = true) →
        ((run_sys all_tokens initial_status leave_result
          (s1 ++ (iL, ⟨true, false⟩) :: s2)).leave_log.map LeaveEvent.target).count M = 1) ∧
      ((M = L ∨ (initial_status M).in_server = false) →
        ((run_sys all_tokens initial_status leave_result
          (s1 ++ (iL, ⟨true, false⟩) :: s2)).leave_log.map LeaveEvent.target).count M = 0)) ∧
    (∀ q ∈ (run_sys all_tokens initial_status leave_result
        (s1 ++ (iL, ⟨true, false⟩) :: s2)).pollers, is_terminal q.2 = true) := by
  have hstut := run_stutter all_tokens initial_status leave_result s1
    (init_sys all_tokens initial_status) rfl rfl hs1
  have hban := sys_step_ban all_tokens initial_status leave_result
    (s1.foldl (sys_step all_tokens initial_status leave_result)
      (init_sys all_tokens initial_status)) iL L hstut.1 hstut.2.1 hiL hinL
  have habs := run_absorb all_tokens initial_status leave_result s2
    (sys_step all_tokens initial_status leave_result
      (s1.foldl (sys_step all_tokens initial_status leave_result)
        (init_sys all_tokens initial_status)) (iL, ⟨true, false⟩)) hban.1
  have hfinal : run_sys all_tokens initial_status leave_result
      (s1 ++ (iL, ⟨true, false⟩) :: s2) =
      s2.foldl (sys_step all_tokens initial_status leave_result)
        (sys_step all_tokens initial_status leave_result
          (s1.foldl (sys_step all_tokens initial_status leave_result)
            (init_sys all_tokens initial_status)) (iL, ⟨true, false⟩)) := by
    unfold run_sys
    rw [List.foldl_append, List.foldl_cons]
  have hlog : (run_sys all_tokens initial_status leave_result
      (s1 ++ (iL, ⟨true, false⟩) :: s2)).leave_log =
      (fanout_targets all_tokens L initial_status).map (fun p => ⟨L, p.1, true⟩) := by
    rw [hfinal, habs.2.1, hban.2.1, hstut.2.2]
    simp [init_sys]
  have hlogmap : ((run_sys all_tokens initial_status leave_result
      (s1 ++ (iL, ⟨true, false⟩) :: s2)).leave_log.map LeaveEvent.target) =
      (fanout_targets all_tokens L initial_status).map Prod.fst := by
    rw [hlog, List.map_map]
    rfl
  refine ⟨hlog, ?_, ?_⟩
  · intro M tk hmem
    constructor
    · intro hM
      rw [hlogmap]
      exact List.count_eq_one_of_mem (fanout_names_nodup hnodup)
        (mem_fanout_names.mpr ⟨tk, hmem, hM.1, hM.2⟩)
    · intro hM
      rw [hlogmap]
      apply List.count_eq_zero_of_not_mem
      intro hc
      obtain ⟨tk2, hmem2, hne2, hin2⟩ := mem_fanout_names.mp hc
      cases hM with
      | inl h =>
        subst h
        exact hne2 rfl
      | inr h =>
        rw [h] at hin2
        cases hin2
  · intro q hq
    rw [hfinal] at hq
    obtain ⟨j, hj⟩ := List.mem_iff_get?.mp hq
    have hjlt : j < (s2.foldl (sys_step all_tokens initial_status leave_result)
        (sys_step all_tokens initial_status leave_result
          (s1.foldl (sys_step all_tokens initial_status leave_result)
            (init_sys all_tokens initial_status)) (iL, ⟨true, false⟩))).pollers.length := by
      by_contra hc
      rw [List.get?_eq_getElem?, List.getElem?_eq_none (Nat.le_of_not_lt hc)] at hj
      cases hj
    have hlenchain : (s2.foldl (sys_step all_tokens initial_status leave_result)
        (sys_step all_tokens initial_status leave_result
          (s1.foldl (sys_step all_tokens initial_status leave_result)
            (init_sys all_tokens initial_status)) (iL, ⟨true, false⟩))).pollers.length =
        all_tokens.length := by
      rw [habs.2.2.1, sys_step_pollers_length, hstut.2.1]
      simp [init_sys]
    have hterm := habs.2.2.2 j (Or.inr (hcov j (by rw [← hlenchain]; exact hjlt)))
    exact hterm q hj

/-- Witness for C3: three credentials, `A` and `B` initially in the server
and `C` not; `B` polls once unchanged, then `A` observes the ban, then every
poller is scheduled once more.  Exactly one leave request results, for `B`. -/
theorem C3_witness :
    (run_sys [("A", "ta"), ("B", "tb"), ("C", "tc")]
      (fun nm => if nm = "C" then ⟨true, false⟩ else ⟨true, true⟩) (fun _ => true)
      ([(1, ⟨true, true⟩)] ++ (0, ⟨true, false⟩) ::
        [(0, ⟨true, true⟩), (1, ⟨true, true⟩), (2, ⟨true, true⟩)])).leave_log =
      (fanout_targets [("A", "ta"), ("B", "tb"), ("C", "tc")] "A"
        (fun nm => if nm = "C" then ⟨true, false⟩ else ⟨true, true⟩)).map
          (fun p => ⟨"A", p.1, true⟩) :=
  (C3_single_ban_exactly_one_leave [("A", "ta"), ("B", "tb"), ("C", "tc")]
    (fun nm => if nm = "C" then ⟨true, false⟩ else ⟨true, true⟩) (fun _ => true)
    [(1, ⟨true, true⟩)] [(0, ⟨true, true⟩), (1, ⟨true, true⟩), (2, ⟨true, true⟩)]
    0 "A" (by decide) (by decide) (by decide) (by decide)
    (by decide)).1

theorem sys_step_none (all_tokens : List Credential)
    (initial_status : String → MembershipStatus) (leave_result : String → Bool)
    (st : SysState) (ev : Nat × MembershipStatus)
    (hget : st.pollers.get? ev.1 = none) :
    sys_step all_tokens initial_status leave_result st ev = st := by
  unfold sys_step
  rw [hget]

theorem sys_step_shape (all_tokens : List Credential)
    (initial_status : String → MembershipStatus) (leave_result : String → Bool)
    (st : SysState) (ev : Nat × MembershipStatus) (nm : String) (ps : PollerState)
    (hget : st.pollers.get? ev.1 = some (nm, ps)) :
    sys_step all_tokens initial_status leave_result st ev =
      { monitoring_active := (poller_step all_tokens initial_status leave_result nm ev.2
          st.monitoring_active ps).active
        pollers := st.pollers.set ev.1 (nm, (poller_step all_tokens initial_status
          leave_result nm ev.2 st.monitoring_active ps).poller)
        leave_log := st.leave_log ++ (poller_step all_tokens initial_status leave_result
          nm ev.2 st.monitoring_active ps).events
        check_log := st.check_log ++ (if (poller_step all_tokens initial_status leave_result
          nm ev.2 st.monitoring_active ps).checked then [nm] else []) } := by
  unfold sys_step
  rw [hget]

theorem sys_step_skip_preserve (all_tokens : List Credential)
    (initial_status : String → MembershipStatus) (leave_result : String → Bool)
    (nama : String) (hns : (initial_status nama).in_server = false)
    (st : SysState) (ev : Nat × MembershipStatus)
    (hp : ∀ q ∈ st.pollers, q.1 = nama → q.2 = PollerState.skipped)
    (hc : nama ∉ st.check_log)
    (hl : ∀ e ∈ st.leave_log, e.issuer ≠ nama ∧ e.target ≠ nama) :
    (∀ q ∈ (sys_step all_tokens initial_status leave_result st ev).pollers,
      q.1 = nama → q.2 = PollerState.skipped) ∧
    nama ∉ (sys_step all_tokens initial_status leave_result st ev).check_log ∧
    (∀ e ∈ (sys_step all_tokens initial_status leave_result st ev).leave_log,
      e.issuer ≠ nama ∧ e.target ≠ nama) := by
  cases hget : st.pollers.get? ev.1 with
  | none =>
    rw [sys_step_none all_tokens initial_status leave_result st ev hget]
    exact ⟨hp, hc, hl⟩
  | some q =>
    obtain ⟨nm, ps⟩ := q
    have hqmem : (nm, ps) ∈ st.pollers := List.get?_mem hget
    rw [sys_step_shape all_tokens initial_status leave_result st ev nm ps hget]
    refine ⟨?_, ?_, ?_⟩
    · intro q' hq' hq'n
      cases List.mem_or_eq_of_mem_set hq' with
      | inl h => exact hp q' h hq'n
      | inr h =>
        subst h
        have hps : ps = PollerState.skipped := hp (nm, ps) hqmem hq'n
        subst hps
        rfl
    · intro hmem
      rw [List.mem_append] at hmem
      cases hmem with
      | inl h => exact hc h
      | inr h =>
        by_cases hnm : nm = nama
        · subst hnm
          have hps : ps = PollerState.skipped := hp (nm, ps) hqmem rfl
          subst hps
          simp [poller_step_skipped] at h
        · split at h
          · simp at h
            exact hnm h.symm
          · simp at h
    · intro e he
      rw [List.mem_append] at he
      cases he with
      | inl h => exact hl e h
      | inr h =>
        have hspec := poller_step_events_spec all_tokens initial_status leave_result nm
          ev.2 st.monitoring_active ps e h
        constructor
        · intro hissuer
          rw [hspec.1] at hissuer
          subst hissuer
          have hps : ps = PollerState.skipped := hp (nm, ps) hqmem rfl
          subst hps
          simp [poller_step_skipped] at h
        · intro htarget
          rw [htarget] at hspec
          rw [hns] at hspec
          exact Bool.false_ne_true hspec.2.2.2

theorem run_skip_invariant (all_tokens : List Credential)
    (initial_status : String → MembershipStatus) (leave_result : String → Bool)
    (nama : String) (hns : (initial_status nama).in_server = false) :
    ∀ (script : List (Nat × MembershipStatus)) (st : SysState),
      (∀ q ∈ st.pollers, q.1 = nama → q.2 = PollerState.skipped) →
      nama ∉ st.check_log →
      (∀ e ∈ st.leave_log, e.issuer ≠ nama ∧ e.target ≠ nama) →
      (∀ q ∈ (script.foldl (sys_step all_tokens initial_status leave_result) st).pollers,
        q.1 = nama → q.2 = PollerState.skipped) ∧
      nama ∉ (script.foldl (sys_step all_tokens initial_status leave_result) st).check_log ∧
      (∀ e ∈ (script.foldl (sys_step all_tokens initial_status leave_result) st).leave_log,
        e.issuer ≠ nama ∧ e.target ≠ nama) := by
  intro script
  induction script with
  | nil =>
    intro st h1 h2 h3
    exact ⟨h1, h2, h3⟩
  | cons ev s ih =>
    intro st h1 h2 h3
    rw [List.foldl_cons]
    have hstep := sys_step_skip_preserve all_tokens initial_status leave_result nama hns
      st ev h1 h2 h3
    exact ih _ hstep.1 hstep.2.1 hstep.2.2

/-- Claim C6 (confirmed).  A credential whose `initial_status` was not
`in_server` has a poller that returns at once: throughout any run it stays
`Skipped`, its name never enters the check log (it never queries its
membership status — it never enters the polling loop), it never issues a
leave request, and no fan-out ever issues a leave request for it either. -/
theorem C6_skipped_never_polls
    (all_tokens : List Credential) (initial_status : String → MembershipStatus)
    (leave_result : String → Bool) (script : List (Nat × MembershipStatus))
    (nama : String) (hns : (initial_status nama).in_server = false) :
    (∀ q ∈ (run_sys all_tokens initial_status leave_result script).pollers,
      q.1 = nama → q.2 = PollerState.skipped) ∧
    nama ∉ (run_sys all_tokens initial_status leave_result script).check_log ∧
    (∀ e ∈ (run_sys all_tokens initial_status leave_result script).leave_log,
      e.issuer ≠ nama ∧ e.target ≠ nama) := by
  apply run_skip_invariant all_tokens initial_status leave_result nama hns script
  · intro q hq hqn
    simp only [init_sys, List.mem_map] at hq
    obtain ⟨p, hp, hqe⟩ := hq
    subst hqe
    simp only at hqn
    rw [hqn]
    unfold init_poller
    rw [if_neg (by rw [hns]; exact Bool.false_ne_true)]
  · simp [init_sys]
  · intro e he
    simp [init_sys] at he

/-- Witness for C6: credential `C` starts outside the server; after a run
in which both pollers are scheduled, `C` never performed a membership
check. -/
theorem C6_witness :
    "C" ∉ (run_sys [("A", "ta"), ("C", "tc")]
      (fun nm => if nm = "C" then ⟨true, false⟩ else ⟨true, true⟩) (fun _ => true)
      [(0, ⟨true, true⟩), (1, ⟨true, true⟩)]).check_log :=
  (C6_skipped_never_polls [("A", "ta"), ("C", "tc")]
    (fun nm => if nm = "C" then ⟨true, false⟩ else ⟨true, true⟩) (fun _ => true)
    [(0, ⟨true, true⟩), (1, ⟨true, true⟩)] "C" (by decide)).2.1

/-- Claim C7 (counterexample).  The claim says `status_messages` and
`exit_success` live in the single shared monitoring state, so annotations
written by the triggering poller are visible to every other poller's
display snapshot.  In the source they are LOCAL variables of each
`monitor_token` call (lines 185-186).  In this run poller `A` triggers the
fan-out and writes annotations (including one about `B`) into its own
local dictionary, yet poller `B`, still looping afterwards, has an empty
local `status_messages` and `exit_success` — `A`'s writes are invisible to
`B`'s display snapshot. -/
theorem C7_counterexample :
    (run_sys [("A", "ta"), ("B", "tb")] (fun _ => ⟨true, true⟩) (fun _ => true)
      [(0, ⟨true, false⟩)]).pollers =
      [("A", PollerState.stopped ⟨⟨true, true⟩,
          [("A", "Berhasil keluar dari server"), ("B", "Proses keluar dari server"),
           ("A", "Banned/Kicked dari server")], ["A"]⟩),
       ("B", PollerState.looping ⟨⟨true, true⟩, [], []⟩)] := rfl

/-- Claim C7 (amended).  `status_messages` and `exit_success` are per-poller
local state, not fields of the shared monitoring state: a scheduler step of
one poller never changes any other poller's entry (its control state and
its local `status_messages`/`exit_success`); only the shared
`monitoring_active` flag and the run's ghost logs can change from another
poller's point of view. -/
theorem C7_amended :
    ∀ (all_tokens : List Credential) (initial_status : String → MembershipStatus)
      (leave_result : String → Bool) (st : SysState) (ev : Nat × MembershipStatus)
      (j : Nat), j ≠ ev.1 →
      (sys_step all_tokens initial_status leave_result st ev).pollers.get? j =
        st.pollers.get? j :=
  fun all_tokens initial_status leave_result st ev j hj =>
    sys_step_other_poller all_tokens initial_status leave_result st ev j hj

/-- Witness for the amended C7: `A`'s triggering step leaves `B`'s poller
entry untouched. -/
theorem C7_amended_witness :
    (sys_step [("A", "ta"), ("B", "tb")] (fun _ => ⟨true, true⟩) (fun _ => true)
      (init_sys [("A", "ta"), ("B", "tb")] (fun _ => ⟨true, true⟩))
      (0, ⟨true, false⟩)).pollers.get? 1 =
      (init_sys [("A", "ta"), ("B", "tb")] (fun _ => ⟨true, true⟩)).pollers.get? 1 :=
  C7_amended [("A", "ta"), ("B", "tb")] (fun _ => ⟨true, true⟩) (fun _ => true)
    (init_sys [("A", "ta"), ("B", "tb")] (fun _ => ⟨true, true⟩))
    (0, ⟨true, false⟩) 1 (by decide)

theorem csm_of_invalid (gid : String) {env rest : List HttpResult}
    (h : check_token_validity env = some (false, rest)) :
    check_server_membership gid env = some (⟨false, false⟩, rest) := by
  have hlen : rest.length < env.length := check_token_validity_length_lt h
  obtain ⟨n, hn⟩ : ∃ n, env.length = n + 1 := ⟨env.length - 1, by omega⟩
  unfold check_server_membership
  rw [hn]
  simp [check_server_membership_core, h]

theorem csm_exc_after_valid (gid : String) {env r2 : List HttpResult}
    (h : check_token_validity env = some (true, HttpResult.exc :: r2)) :
    check_server_membership gid env = some (⟨true, false⟩, r2) := by
  have hlen := check_token_validity_length_lt h
  obtain ⟨n, hn⟩ : ∃ n, env.length = n + 1 := ⟨env.length - 1, by omega⟩
  unfold check_server_membership
  rw [hn]
  simp [check_server_membership_core, h]

theorem csm_fallback_exc (gid : String) {env r3 : List HttpResult} {s : Nat}
    {ra : Option Nat} {g : List String}
    (h : check_token_validity env =
      some (true, HttpResult.ok s ra g :: HttpResult.exc :: r3))
    (h200 : s ≠ 200) (h404 : s ≠ 404) (h401 : s ≠ 401) (h429 : s ≠ 429) :
    check_server_membership gid env = some (⟨true, false⟩, r3) := by
  have hlen := check_token_validity_length_lt h
  obtain ⟨n, hn⟩ : ∃ n, env.length = n + 1 := ⟨env.length - 1, by omega⟩
  unfold check_server_membership
  rw [hn]
  simp [check_server_membership_core, h, h200, h404, h401, h429]

/-- Claim C4 (counterexample).  The claim says a transport-level failure
ANYWHERE during a membership check makes `check_server_membership` return
`{valid: true, in_server: false}`.  But the first request the call makes is
the inner `check_token_validity`, which catches its own exceptions and
returns `False` (lines 72-74); `check_server_membership` then takes its
invalid early-return (lines 83-85).  So a transport failure during that
inner request yields `{valid: False, in_server: False}`, reporting the
credential invalid — not `{true, false}`. -/
theorem C4_counterexample :
    check_server_membership "1" [HttpResult.exc] = some (⟨false, false⟩, []) ∧
    (⟨false, false⟩ : MembershipStatus) ≠ ⟨true, false⟩ := by
  refine ⟨rfl, ?_⟩
  decide

/-- Claim C4 (amended).  A transport failure during the inner validity
sub-check is absorbed by `check_token_validity` returning false, and
`check_server_membership` then returns `{valid: false, in_server: false}`.
Only a transport failure in the membership request itself or in the
fallback resource-list request (i.e. after the validity sub-check returned
true) is caught by `check_server_membership`'s own handler and yields
`{valid: true, in_server: false}`. -/
theorem C4_amended :
    (∀ rest : List HttpResult,
      check_token_validity (HttpResult.exc :: rest) = some (false, rest)) ∧
    (∀ (gid : String) (env rest : List HttpResult),
      check_token_validity env = some (false, rest) →
      check_server_membership gid env = some (⟨false, false⟩, rest)) ∧
    (∀ (gid : String) (env r2 : List HttpResult),
      check_token_validity env = some (true, HttpResult.exc :: r2) →
      check_server_membership gid env = some (⟨true, false⟩, r2)) ∧
    (∀ (gid : String) (env r3 : List HttpResult) (s : Nat) (ra : Option Nat)
      (g : List String),
      check_token_validity env =
        some (true, HttpResult.ok s ra g :: HttpResult.exc :: r3) →
      s ≠ 200 → s ≠ 404 → s ≠ 401 → s ≠ 429 →
      check_server_membership gid env = some (⟨true, false⟩, r3)) := by
  refine ⟨fun rest => rfl, ?_, ?_, ?_⟩
  · intro gid env rest h
    exact csm_of_invalid gid h
  · intro gid env r2 h
    exact csm_exc_after_valid gid h
  · intro gid env r3 s ra g h h200 h404 h401 h429
    exact csm_fallback_exc gid h h200 h404 h401 h429

/-- Witness for the amended C4: validity succeeds (200), then the
membership request raises; the call returns `{true, false}`. -/
theorem C4_amended_witness :
    check_server_membership "1" [HttpResult.ok 200 none [], HttpResult.exc] =
      some (⟨true, false⟩, []) :=
  C4_amended.2.2.1 "1" [HttpResult.ok 200 none [], HttpResult.exc] [] rfl

theorem core_in_server_valid (gid : String) :
    ∀ (fuel : Nat) (env rest : List HttpResult) (st : MembershipStatus),
      check_server_membership_core gid fuel env = some (st, rest) →
      st.in_server = true → st.valid = true := by
  intro fuel
  induction fuel with
  | zero =>
    intro env rest st h
    simp [check_server_membership_core] at h
  | succ f ih =>
    intro env rest st h hin
    simp only [check_server_membership_core] at h
    split at h
    · cases h
    · simp only [Option.some.injEq, Prod.mk.injEq] at h
      rw [← h.1] at hin
      cases hin
    · split at h
      · cases h
      · simp only [Option.some.injEq, Prod.mk.injEq] at h
        rw [← h.1]
      · split at h
        · simp only [Option.some.injEq, Prod.mk.injEq] at h
          rw [← h.1]
        · split at h
          · simp only [Option.some.injEq, Prod.mk.injEq] at h
            rw [← h.1]
          · split at h
            · simp only [Option.some.injEq, Prod.mk.injEq] at h
              rw [← h.1] at hin
              cases hin
            · split at h
              · exact ih _ _ _ h hin
              · split at h
                · cases h
                · simp only [Option.some.injEq, Prod.mk.injEq] at h
                  rw [← h.1]
                · split at h
                  · simp only [Option.some.injEq, Prod.mk.injEq] at h
                    rw [← h.1]
                  · simp only [Option.some.injEq, Prod.mk.injEq] at h
                    rw [← h.1]

/-- Claim C9 (confirmed).  Every `MembershipStatus` produced by
`check_server_membership` — on every response and failure path, the
fallback resource-list query included — satisfies
`in_server == true → valid == true`; `{valid: false, in_server: true}` is
never returned. -/
theorem C9_membership_invariant :
    ∀ (gid : String) (env rest : List HttpResult) (st : MembershipStatus),
      check_server_membership gid env = some (st, rest) →
      st.in_server = true → st.valid = true := by
  intro gid env rest st h hin
  exact core_in_server_valid gid env.length env rest st h hin

/-- Witness for C9 at a concrete 200/200 exchange. -/
theorem C9_witness : (MembershipStatus.mk true true).valid = true :=
  C9_membership_invariant "1" [HttpResult.ok 200 none [], HttpResult.ok 200 none []] []
    ⟨true, true⟩ rfl rfl

theorem check_token_validity_replicate_429 (n : Nat) (ra : Option Nat) (g : List String)
    (env : List HttpResult) :
    check_token_validity (List.replicate n (HttpResult.ok 429 ra g) ++ env) =
      check_token_validity env := by
  induction n with
  | zero => rfl
  | succ n ih =>
    rw [List.replicate_succ, List.cons_append]
    show check_token_validity (List.replicate n (HttpResult.ok 429 ra g) ++ env) =
      check_token_validity env
    exact ih

theorem leave_server_replicate_429 (n : Nat) (ra : Option Nat) (g : List String)
    (env : List HttpResult) :
    leave_server (List.replicate n (HttpResult.ok 429 ra g) ++ env) =
      leave_server env := by
  induction n with
  | zero => rfl
  | succ n ih =>
    rw [List.replicate_succ, List.cons_append]
    show leave_server (List.replicate n (HttpResult.ok 429 ra g) ++ env) =
      leave_server env
    exact ih

theorem check_server_membership_core_congr (gid : String) (f : Nat)
    {env1 env2 : List HttpResult}
    (h : check_token_validity env1 = check_token_validity env2) :
    check_server_membership_core gid (f + 1) env1 =
      check_server_membership_core gid (f + 1) env2 := by
  simp only [check_server_membership_core]
  rw [h]

theorem csm_replicate_429 (gid : String) (n : Nat) (ra : Option Nat) (g : List String)
    (env : List HttpResult) :
    check_server_membership gid (List.replicate n (HttpResult.ok 429 ra g) ++ env) =
      check_server_membership gid env := by
  cases hE : (List.replicate n (HttpResult.ok 429 ra g) ++ env).length with
  | zero =>
    have hn : n = 0 ∧ env.length = 0 := by
      rw [List.length_append, List.length_replicate] at hE
      omega
    have he : env = [] := List.eq_nil_of_length_eq_zero hn.2
    subst he
    rw [hn.1]
    rfl
  | succ m =>
    have hlen : env.length ≤ m + 1 := by
      rw [List.length_append] at hE
      omega
    unfold check_server_membership
    rw [hE]
    rw [check_server_membership_core_congr gid m
      (check_token_validity_replicate_429 n ra g env)]
    exact (check_server_membership_eq_core gid env hlen).symm

theorem csm_429_restart (gid : String) {env r2 : List HttpResult}
    {ra : Option Nat} {g : List String}
    (h : check_token_validity env = some (true, HttpResult.ok 429 ra g :: r2)) :
    check_server_membership gid env = check_server_membership gid r2 := by
  have hlt := check_token_validity_length_lt h
  have hr2 : r2.length + 1 < env.length := by simpa using hlt
  obtain ⟨m, hm⟩ : ∃ m, env.length = m + 1 := ⟨env.length - 1, by omega⟩
  unfold check_server_membership
  rw [hm]
  simp only [check_server_membership_core, h]
  norm_num
  exact check_server_membership_core_fuel_irrel gid m r2.length r2 (by omega)
    (Nat.le_refl _)

/-- Claim C5 (counterexample).  The claim says a 429 response followed by a
final non-rate-limited response always yields the value the call would
return given the final response alone.  `check_server_membership`'s 429
branch (line 101) retries the WHOLE call, re-running the validity
sub-check; the retry therefore consumes the next response as a VALIDITY
response.  With responses 200 (validity), 429 (membership), 404: the retry
treats the 404 as an invalid-token validity result and the call returns
`{valid: false, in_server: false}`; without the 429 the same 404 is the
membership response and the call returns `{valid: true, in_server: false}`. -/
theorem C5_counterexample :
    check_server_membership "1" [HttpResult.ok 200 none [], HttpResult.ok 429 none [],
      HttpResult.ok 404 none []] = some (⟨false, false⟩, []) ∧
    check_server_membership "1" [HttpResult.ok 200 none [], HttpResult.ok 404 none []] =
      some (⟨true, false⟩, []) ∧
    some ((⟨false, false⟩ : MembershipStatus), ([] : List HttpResult)) ≠
      some ((⟨true, false⟩ : MembershipStatus), ([] : List HttpResult)) := by
  refine ⟨rfl, rfl, ?_⟩
  decide

/-- Claim C5 (amended).  For `check_token_validity` and `leave_server` any
finite run of 429 responses before the remaining responses is transparent:
the returned value is the call's value on the stream without them.  For
`check_server_membership`, 429 responses preceding the validity response
are likewise transparent; but a 429 on the membership request restarts the
entire call (re-validation included), so the call returns exactly what a
fresh `check_server_membership` returns on the remaining responses — which
need not equal the single call's result on the stream without the 429. -/
theorem C5_amended :
    (∀ (n : Nat) (ra : Option Nat) (g : List String) (env : List HttpResult),
      check_token_validity (List.replicate n (HttpResult.ok 429 ra g) ++ env) =
        check_token_validity env) ∧
    (∀ (n : Nat) (ra : Option Nat) (g : List String) (env : List HttpResult),
      leave_server (List.replicate n (HttpResult.ok 429 ra g) ++ env) =
        leave_server env) ∧
    (∀ (gid : String) (n : Nat) (ra : Option Nat) (g : List String)
      (env : List HttpResult),
      check_server_membership gid (List.replicate n (HttpResult.ok 429 ra g) ++ env) =
        check_server_membership gid env) ∧
    (∀ (gid : String) (env r2 : List HttpResult) (ra : Option Nat) (g : List String),
      check_token_validity env = some (true, HttpResult.ok 429 ra g :: r2) →
      check_server_membership gid env = check_server_membership gid r2) := by
  refine ⟨check_token_validity_replicate_429, leave_server_replicate_429,
    csm_replicate_429, ?_⟩
  intro gid env r2 ra g h
  exact csm_429_restart gid h

/-- Witness for the amended C5: after a valid 200, a 429 on the membership
request makes the call restart on the remaining stream. -/
theorem C5_amended_witness :
    check_server_membership "1" [HttpResult.ok 200 none [], HttpResult.ok 429 none [],
      HttpResult.ok 404 none []] =
      check_server_membership "1" [HttpResult.ok 404 none []] :=
  C5_amended.2.2.2 "1"
    [HttpResult.ok 200 none [], HttpResult.ok 429 none [], HttpResult.ok 404 none []]
    [HttpResult.ok 404 none []] none [] rfl

/-- Claim C8 (counterexample).  The claim says a configuration error makes
the process terminate with a NON-ZERO exit code.  With an empty `token.txt`
the `ValueError` of line 309 is raised, the error is a configuration error
and monitoring never starts — but the `except Exception` handler at line
424 swallows it, `main` returns normally and the process exits 0. -/
theorem C8_counterexample :
    (main_outcome [] "123").config_error = true ∧
    (main_outcome [] "123").monitoring_started = false ∧
    (main_outcome [] "123").exit_code = 0 := by
  decide

/-- Claim C8 (amended).  Configuration errors (no credential line, or an
empty/non-numeric resource id) print an error and abort before monitoring
starts, exactly as claimed — but the top-level handler swallows the
exception, so the process exit code is 0 on every path, configuration
errors included, not non-zero. -/
theorem C8_amended :
    ∀ (token_lines : List String) (gid : String),
      (main_outcome token_lines gid).exit_code = 0 ∧
      ((main_outcome token_lines gid).config_error = true ↔
        ((token_lines.filter (fun l => l.contains ':')).isEmpty = true ∨
          guild_id_ok gid = false)) ∧
      ((main_outcome token_lines gid).monitoring_started = true ↔
        (main_outcome token_lines gid).config_error = false) := by
  intro lines gid
  unfold main_outcome
  by_cases h1 : (lines.filter (fun l => l.contains ':')).isEmpty
  · simp [h1]
  · by_cases h2 : guild_id_ok gid
    · simp [h1, h2]
    · simp [h1, h2]

/-- Claim C10 (confirmed).  `validate_tokens` returns a permutation of its
input (each credential entry exactly as often as it occurs in the input),
consisting of the credentials that validated as valid, in input order,
followed by those that validated as invalid, in input order — so the
output order generally differs from the input order. -/
theorem C10_validate_tokens_partition :
    ∀ (tokens : List Credential) (ok : Credential → Bool),
      (validate_tokens tokens ok).Perm tokens ∧
      ∃ a b, validate_tokens tokens ok = a ++ b ∧ a = tokens.filter ok ∧
        (∀ t ∈ a, ok t = true) ∧ (∀ t ∈ b, ok t = false) := by
  intro tokens ok
  refine ⟨List.filter_append_perm ok tokens, tokens.filter ok,
    tokens.filter (fun t => !(ok t)), rfl, rfl, ?_, ?_⟩
  · intro t ht
    exact List.of_mem_filter ht
  · intro t ht
    have hb := List.of_mem_filter ht
    simpa using hb

/-- Witness for C10 at a two-credential list where only the second entry
validates: the valid entry moves in front of the invalid one. -/
theorem C10_witness :
    (validate_tokens [("A", "x"), ("B", "y")] (fun t => t.2 == "y")).Perm
      [("A", "x"), ("B", "y")] :=
  (C10_validate_tokens_partition [("A", "x"), ("B", "y")] (fun t => t.2 == "y")).1

end DiscordXp
